import Mathlib

/-!
Shallow embedding of the HeyGen_status repository: a simulated video-translation
server (job store with lazy status transition) and two client polling
strategies (exponential backoff and quadratic expected-time scheduling).
JavaScript numbers are modelled as exact rationals (`ℚ`); the arithmetic the
code performs on them (`*2`, `min`, `max`, polynomial evaluation, `Math.floor`)
is exact on the values involved.  Statuses are the literal strings the code
compares against.
-/

namespace VideoTranslation

/-- `src/client/strategies/exponential.js` line 48:
`interval = Math.min(interval * 2, stableInterval)`. -/
def nextInterval (current stable : ℚ) : ℚ :=
  min (current * 2) stable

/-- The sequence of waits the exponential strategy uses: `expInterval initial
stable n` is the wait scheduled between poll `n+1` and poll `n+2`.  The local
`interval` starts at `initialInterval` (line 30) and is updated by
`nextInterval` after each pending poll (line 48). -/
def expInterval (initial stable : ℚ) : ℕ → ℚ
  | 0 => initial
  | n + 1 => nextInterval (expInterval initial stable n) stable

/-- The outcome of one body of the `poll` closure in either strategy:
it resolves the promise, rejects it with the translation-error message,
rejects it with the error thrown by `client.checkStatus`, or schedules
exactly one further `poll` via `setTimeout(poll, wait)`. -/
inductive PollAction (ε : Type) where
  | resolve (value : String)
  | reject (message : String)
  | rejectWith (e : ε)
  | schedule (wait : ℚ)
deriving DecidableEq

/-- One cycle of the exponential strategy's `poll` (exponential.js lines
33-53).  The input is the settled result of `await client.checkStatus`
(`Except.error e` when that await throws) and the current `interval`
variable; the output pairs the action taken with the value of `interval`
after the cycle (doubling happens only on the pending branch, after the
next poll was scheduled with the pre-update interval). -/
def exponentialPoll {ε : Type} (stable interval : ℚ) (res : Except ε String) :
    PollAction ε × ℚ :=
  match res with
  | Except.error e => (PollAction.rejectWith e, interval)
  | Except.ok status =>
    if status = "completed" then (PollAction.resolve "completed", interval)
    else if status = "error" then
      (PollAction.reject "Error in video translation.", interval)
    else (PollAction.schedule interval, nextInterval interval stable)

/-- `timeRemaining = Math.max(0, expectedCompletionTime - elapsedTime)`
(part_000 line 418). -/
def timeRemaining (ect elapsed : ℚ) : ℚ :=
  max 0 (ect - elapsed)

/-- `interval = a * timeRemaining ** 2 + b * timeRemaining + c`
(part_000 line 422). -/
def quadRaw (a b c t : ℚ) : ℚ :=
  a * t ^ 2 + b * t + c

/-- The interval computed by the expected-time strategy for a given elapsed
time: the quadratic raw value clamped by
`Math.max(minimumInterval, Math.min(interval, maximumInterval))`
(part_000 lines 416-425). -/
def expectedTimeInterval (ect a b c minI maxI elapsed : ℚ) : ℚ :=
  max minI (min (quadRaw a b c (timeRemaining ect elapsed)) maxI)

/-- One cycle of the expected-time strategy's `poll` (part_000 lines
406-437).  `currentTime` stands for the `Date.now()` read inside the pending
branch; `elapsedTime = currentTime - jobStartTime`. -/
def expectedTimePoll {ε : Type} (ect a b c minI maxI jobStartTime currentTime : ℚ)
    (res : Except ε String) : PollAction ε :=
  match res with
  | Except.error e => PollAction.rejectWith e
  | Except.ok status =>
    if status = "completed" then PollAction.resolve "completed"
    else if status = "error" then
      PollAction.reject "Error in video translation."
    else
      PollAction.schedule
        (expectedTimeInterval ect a b c minI maxI (currentTime - jobStartTime))

/-- The configuration the expected-time strategy destructures from `options`
(part_000 lines 386-392), after the per-field defaults have been applied to
every field except `expectedCompletionTime`, whose absence matters. -/
structure ExpectedTimeOptions where
  expectedCompletionTime : Option ℚ
  a : ℚ
  b : ℚ
  c : ℚ
  minimumInterval : ℚ
  maximumInterval : ℚ
  jobStartTime : ℚ

/-- The guard `if (!expectedCompletionTime) throw new Error(...)` (part_000
lines 394-396): a JavaScript number is falsy exactly when it is absent or
equal to 0. -/
def checkExpectedCompletionTime : Option ℚ → Except String ℚ
  | none => Except.error "Expected completion time must be provided."
  | some v =>
    if v = 0 then Except.error "Expected completion time must be provided."
    else Except.ok v

/-- The expected-time strategy entry point (part_000 lines 385-398): it
validates `expectedCompletionTime` first and throws before constructing the
promise or performing any status check; on success it yields the per-cycle
poll function. -/
def expectedTimeStrategy (ε : Type) (opts : ExpectedTimeOptions) :
    Except String (ℚ → Except ε String → PollAction ε) :=
  match checkExpectedCompletionTime opts.expectedCompletionTime with
  | Except.error m => Except.error m
  | Except.ok ect =>
    Except.ok fun currentTime res =>
      expectedTimePoll ect opts.a opts.b opts.c opts.minimumInterval
        opts.maximumInterval opts.jobStartTime currentTime res

/-- A stored job record (part_000 lines 76-80): creation time, drawn delay,
and the mutable status string. -/
structure VideoJob where
  startTime : ℤ
  delay : ℤ
  status : String
deriving DecidableEq

/-- The module-level `videos` object (part_000 line 39), keyed by videoID. -/
abbrev Store := String → Option VideoJob

/-- The status read-and-conditionally-mutate step of `GET /status` for one
job (part_000 lines 115-123): if the delay has elapsed and the stored status
is "pending", the status mutates to "completed"; the returned string is the
status after this possible mutation. -/
def stepStatus (now : ℤ) (video : VideoJob) : String × VideoJob :=
  if now - video.startTime ≥ video.delay ∧ video.status = "pending" then
    ("completed", { video with status := "completed" })
  else (video.status, video)

/-- A sequence of `GET /status` reads of one job at the given times, each
seeing the record as the previous call left it; returns the list of reported
statuses and the final record. -/
def runStatusChecks (video : VideoJob) : List ℤ → List String × VideoJob
  | [] => ([], video)
  | t :: ts =>
    let r := stepStatus t video
    let rest := runStatusChecks r.2 ts
    (r.1 :: rest.1, rest.2)

/-- The `GET /status` handler (part_000 lines 107-124): 404 when the id is
falsy or unknown, otherwise report via `stepStatus` and store the possibly
mutated record back. -/
def getStatus (videos : Store) (videoID : String) (now : ℤ) :
    Store × Except String String :=
  if videoID = "" then (videos, Except.error "Video not found")
  else
    match videos videoID with
    | none => (videos, Except.error "Video not found")
    | some video =>
      let r := stepStatus now video
      (fun id => if id = videoID then some r.2 else videos id, Except.ok r.1)

/-- `Math.floor(Math.random() * (MAX_DELAY - MIN_DELAY + 1) + MIN_DELAY)`
(part_000 line 68), with `r` the value drawn by `Math.random()`
(a value in `[0, 1)`). -/
def drawDelay (r : ℚ) (minDelay maxDelay : ℤ) : ℤ :=
  Int.floor (r * ((maxDelay : ℚ) - (minDelay : ℚ) + 1) + (minDelay : ℚ))

/-- `Math.random() > ERROR_RATE ? 'pending' : 'error'` (part_000 line 69),
with `r` the value drawn by `Math.random()`. -/
def drawStatus (r errorRate : ℚ) : String :=
  if r > errorRate then "pending" else "error"

/-- The two 400 failures of `POST /create`. -/
inductive CreateError where
  | invalidId
  | duplicateId
deriving DecidableEq

/-- The `POST /create` handler (part_000 lines 59-89): reject a falsy
videoID, reject a duplicate id, otherwise store a fresh record built from
the two random draws; returns the store after the call together with the
response. -/
def createJob (videos : Store) (videoID : String) (now : ℤ)
    (rDelay rStatus : ℚ) (minDelay maxDelay : ℤ) (errorRate : ℚ) :
    Store × Except CreateError String :=
  if videoID = "" then (videos, Except.error CreateError.invalidId)
  else
    match videos videoID with
    | some _ => (videos, Except.error CreateError.duplicateId)
    | none =>
      (fun id =>
        if id = videoID then
          some { startTime := now
                 delay := drawDelay rDelay minDelay maxDelay
                 status := drawStatus rStatus errorRate }
        else videos id,
       Except.ok videoID)

theorem expInterval_nonneg_le (initial stable : ℚ) (h0 : 0 ≤ initial)
    (hle : initial ≤ stable) (n : ℕ) :
    0 ≤ expInterval initial stable n ∧ expInterval initial stable n ≤ stable := by
  induction n with
  | zero => exact ⟨h0, hle⟩
  | succ n ih =>
    refine ⟨le_min (by linarith [ih.1]) (le_trans h0 hle), min_le_right _ _⟩

/-- C1 counterexample: with `initial = 10000 > stable = 8000` the first
interval exceeds `stable` and the second interval is strictly smaller than
the first, so the sequence is neither bounded by `stable` nor
non-decreasing for every `initial` and `stable`. -/
theorem expInterval_not_universally_monotone :
    expInterval 10000 8000 0 > 8000 ∧
    expInterval 10000 8000 1 < expInterval 10000 8000 0 := by
  constructor <;> norm_num [expInterval, nextInterval]

/-- C1 (amended): the wait sequence satisfies the recurrence — first interval
`initial`, each subsequent interval `min(previous * 2, stable)` — and for
every `initial`, `stable` with `0 ≤ initial ≤ stable` the sequence is
non-decreasing and never exceeds `stable`; with `initial = 1000`,
`stable = 8000` it runs `1000, 2000, 4000, 8000, 8000, …`. -/
theorem expInterval_spec (initial stable : ℚ)
    (h0 : 0 ≤ initial) (hle : initial ≤ stable) :
    (expInterval initial stable 0 = initial ∧
      ∀ n : ℕ, expInterval initial stable (n + 1) =
        min (expInterval initial stable n * 2) stable) ∧
    (Monotone (expInterval initial stable) ∧
      ∀ n : ℕ, expInterval initial stable n ≤ stable) ∧
    (expInterval 1000 8000 0 = 1000 ∧ expInterval 1000 8000 1 = 2000 ∧
      expInterval 1000 8000 2 = 4000 ∧ expInterval 1000 8000 3 = 8000 ∧
      expInterval 1000 8000 4 = 8000) := by
  refine ⟨⟨rfl, fun n => rfl⟩, ⟨?_, fun n => (expInterval_nonneg_le initial stable h0 hle n).2⟩, ?_⟩
  · refine monotone_nat_of_le_succ fun n => ?_
    have h := expInterval_nonneg_le initial stable h0 hle n
    exact le_min (by linarith [h.1]) h.2
  · norm_num [expInterval, nextInterval]

/-- C1 witness: the amended statement instantiated at `initial = 1000`,
`stable = 8000`. -/
theorem expInterval_spec_witness :
    Monotone (expInterval 1000 8000) ∧ expInterval 1000 8000 7 ≤ 8000 := by
  have h := expInterval_spec 1000 8000 (by norm_num) (by norm_num)
  exact ⟨h.2.1.1, h.2.1.2 7⟩

/-- C2 counterexample: with `minimumInterval = -5 ≤ maximumInterval = 10` and
coefficients `a = 0, b = 0, c = -1` at `elapsed = expectedCompletionTime`
the raw value is `-1 < 0`, yet the returned interval is `-1`, not
`minimumInterval = -5`. -/
theorem expectedTimeInterval_negative_raw_counterexample :
    quadRaw 0 0 (-1) (timeRemaining 30000 30000) < 0 ∧
    expectedTimeInterval 30000 0 0 (-1) (-5) 10 30000 = -1 ∧
    ((-1 : ℚ) ≠ -5) := by
  refine ⟨?_, ?_, by norm_num⟩ <;>
    norm_num [quadRaw, timeRemaining, expectedTimeInterval]

/-- C2 (amended): for every elapsed time and coefficients, the returned
interval is `max(minimumInterval, min(a*t² + b*t + c, maximumInterval))` with
`t = max(0, expectedCompletionTime - elapsed)`; assuming
`minimumInterval ≤ maximumInterval` the result lies in
`[minimumInterval, maximumInterval]`, and assuming additionally
`0 ≤ minimumInterval`, a negative raw value yields exactly
`minimumInterval`. -/
theorem expectedTimeInterval_spec (ect a b c minI maxI elapsed : ℚ) :
    (expectedTimeInterval ect a b c minI maxI elapsed =
      max minI (min (a * (max 0 (ect - elapsed)) ^ 2 +
        b * (max 0 (ect - elapsed)) + c) maxI)) ∧
    (minI ≤ maxI →
      minI ≤ expectedTimeInterval ect a b c minI maxI elapsed ∧
      expectedTimeInterval ect a b c minI maxI elapsed ≤ maxI) ∧
    (0 ≤ minI → minI ≤ maxI →
      quadRaw a b c (timeRemaining ect elapsed) < 0 →
      expectedTimeInterval ect a b c minI maxI elapsed = minI) := by
  refine ⟨rfl, fun hmm => ⟨le_max_left _ _, max_le hmm (min_le_right _ _)⟩,
    fun h0 hmm hraw => ?_⟩
  have h1 : quadRaw a b c (timeRemaining ect elapsed) ≤ maxI := by linarith
  rw [expectedTimeInterval, min_eq_left h1, max_eq_left (by linarith)]

/-- C2 witness: the amended statement at `(a, b, c) = (0, 0, -1)`,
`minimumInterval = 500`, `maximumInterval = 3000`,
`elapsed = expectedCompletionTime = 30000`. -/
theorem expectedTimeInterval_spec_witness :
    500 ≤ expectedTimeInterval 30000 0 0 (-1) 500 3000 30000 ∧
    expectedTimeInterval 30000 0 0 (-1) 500 3000 30000 ≤ 3000 ∧
    expectedTimeInterval 30000 0 0 (-1) 500 3000 30000 = 500 := by
  have h := expectedTimeInterval_spec 30000 0 0 (-1) 500 3000 30000
  have hr := h.2.1 (by norm_num)
  exact ⟨hr.1, hr.2, h.2.2 (by norm_num) (by norm_num)
    (by norm_num [quadRaw, timeRemaining])⟩

/-- C3 counterexample: with the test configuration
`expectedCompletionTime = 30000`, `a = 1/30000 ≥ 0`, `b = 1/100 ≥ 0`,
`c = 1000`, `minimumInterval = 500`, `maximumInterval = 3000`, at
`elapsed = expectedCompletionTime` (so `timeRemaining = 0`) the interval is
`1000`, not `minimumInterval = 500`. -/
theorem expectedTimeInterval_zero_remaining_counterexample :
    (0 : ℚ) ≤ 1 / 30000 ∧ (0 : ℚ) ≤ 1 / 100 ∧
    expectedTimeInterval 30000 (1 / 30000) (1 / 100) 1000 500 3000 30000 = 1000 ∧
    ((1000 : ℚ) ≠ 500) := by
  refine ⟨by norm_num, by norm_num, ?_, by norm_num⟩
  norm_num [expectedTimeInterval, quadRaw, timeRemaining]

theorem timeRemaining_antitone (ect : ℚ) {e1 e2 : ℚ} (h : e1 ≤ e2) :
    timeRemaining ect e2 ≤ timeRemaining ect e1 :=
  max_le (le_max_left _ _) (le_trans (by linarith) (le_max_right _ _))

theorem quadRaw_mono (a b c : ℚ) (ha : 0 ≤ a) (hb : 0 ≤ b) {t1 t2 : ℚ}
    (h0 : 0 ≤ t1) (h : t1 ≤ t2) : quadRaw a b c t1 ≤ quadRaw a b c t2 := by
  have hsq : t1 ^ 2 ≤ t2 ^ 2 := by nlinarith
  have h1 : a * t1 ^ 2 ≤ a * t2 ^ 2 := mul_le_mul_of_nonneg_left hsq ha
  have h2 : b * t1 ≤ b * t2 := mul_le_mul_of_nonneg_left h hb
  simp only [quadRaw]
  linarith

/-- C3 (amended): for non-negative `a` and `b` the interval is monotonically
non-increasing in the elapsed time, and once
`elapsed ≥ expectedCompletionTime` it is constant at
`max(minimumInterval, min(c, maximumInterval))`, which equals
`minimumInterval` whenever `c ≤ minimumInterval`. -/
theorem expectedTimeInterval_monotone (ect a b c minI maxI : ℚ)
    (ha : 0 ≤ a) (hb : 0 ≤ b) :
    (∀ e1 e2 : ℚ, e1 ≤ e2 →
      expectedTimeInterval ect a b c minI maxI e2 ≤
        expectedTimeInterval ect a b c minI maxI e1) ∧
    (∀ e : ℚ, ect ≤ e →
      expectedTimeInterval ect a b c minI maxI e = max minI (min c maxI)) ∧
    (c ≤ minI → ∀ e : ℚ, ect ≤ e →
      expectedTimeInterval ect a b c minI maxI e = minI) := by
  have hconst : ∀ e : ℚ, ect ≤ e →
      expectedTimeInterval ect a b c minI maxI e = max minI (min c maxI) := by
    intro e he
    have ht : timeRemaining ect e = 0 := by
      simp only [timeRemaining, max_eq_left_iff]
      linarith
    simp [expectedTimeInterval, quadRaw, ht]
  refine ⟨fun e1 e2 h => ?_, hconst, fun hc e he => ?_⟩
  · have hm := quadRaw_mono a b c ha hb (le_max_left 0 _)
      (timeRemaining_antitone ect h)
    exact max_le_max le_rfl (min_le_min hm le_rfl)
  · rw [hconst e he, max_eq_left (le_trans (min_le_left _ _) hc)]

/-- C3 witness: the amended statement at the spec's example configuration
`expectedCompletionTime = 30000`, `a = 1/30000`, `b = 1/100`, `c = 500`,
`minimumInterval = 500`, `maximumInterval = 3000`. -/
theorem expectedTimeInterval_monotone_witness :
    expectedTimeInterval 30000 (1 / 30000) (1 / 100) 500 500 3000 30000 ≤
      expectedTimeInterval 30000 (1 / 30000) (1 / 100) 500 500 3000 0 ∧
    expectedTimeInterval 30000 (1 / 30000) (1 / 100) 500 500 3000 40000 = 500 := by
  have h := expectedTimeInterval_monotone 30000 (1 / 30000) (1 / 100) 500 500 3000
    (by norm_num) (by norm_num)
  exact ⟨h.1 0 30000 (by norm_num), h.2.2 le_rfl 40000 (by norm_num)⟩

/-- C4: in each poll cycle of either strategy, status `"completed"` resolves
the loop with `"completed"`, status `"error"` rejects it with the
translation-error message, and any other status value schedules exactly one
further cycle after the strategy's computed interval (the exponential
strategy waits its current interval and doubles it, capped at `stable`, for
the following cycle; the expected-time strategy waits the clamped quadratic
interval for the current elapsed time). -/
theorem pollCycle_terminal_and_pending (ε : Type)
    (stable interval ect a b c minI maxI jobStartTime currentTime : ℚ) :
    (exponentialPoll stable interval (Except.ok "completed" : Except ε String) =
        (PollAction.resolve "completed", interval) ∧
      exponentialPoll stable interval (Except.ok "error" : Except ε String) =
        (PollAction.reject "Error in video translation.", interval) ∧
      ∀ s : String, s ≠ "completed" → s ≠ "error" →
        exponentialPoll stable interval (Except.ok s : Except ε String) =
          (PollAction.schedule interval, nextInterval interval stable)) ∧
    (expectedTimePoll ect a b c minI maxI jobStartTime currentTime
        (Except.ok "completed" : Except ε String) =
        PollAction.resolve "completed" ∧
      expectedTimePoll ect a b c minI maxI jobStartTime currentTime
        (Except.ok "error" : Except ε String) =
        PollAction.reject "Error in video translation." ∧
      ∀ s : String, s ≠ "completed" → s ≠ "error" →
        expectedTimePoll ect a b c minI maxI jobStartTime currentTime
          (Except.ok s : Except ε String) =
          PollAction.schedule (expectedTimeInterval ect a b c minI maxI
            (currentTime - jobStartTime))) := by
  refine ⟨⟨rfl, rfl, fun s hc he => ?_⟩, rfl, rfl, fun s hc he => ?_⟩ <;>
    simp [exponentialPoll, expectedTimePoll, hc, he]

/-- C4 witness: the pending branch at status `"pending"` with the default
exponential configuration and the spec's expected-time configuration. -/
theorem pollCycle_terminal_and_pending_witness :
    exponentialPoll 8000 1000 (Except.ok "pending" : Except String String) =
      (PollAction.schedule 1000, nextInterval 1000 8000) ∧
    expectedTimePoll 30000 (1 / 30000) (1 / 100) 500 500 3000 0 0
      (Except.ok "pending" : Except String String) =
      PollAction.schedule (expectedTimeInterval 30000 (1 / 30000) (1 / 100)
        500 500 3000 (0 - 0)) := by
  have h := pollCycle_terminal_and_pending String 8000 1000 30000 (1 / 30000)
    (1 / 100) 500 500 3000 0 0
  exact ⟨h.1.2.2 "pending" (by decide) (by decide),
    h.2.2.2 "pending" (by decide) (by decide)⟩

/-- C5: when the awaited status check itself fails, each strategy's poll
cycle rejects with exactly the thrown error and schedules no further
cycle. -/
theorem pollCycle_transport_failure (ε : Type) (e : ε)
    (stable interval ect a b c minI maxI jobStartTime currentTime : ℚ) :
    exponentialPoll stable interval (Except.error e : Except ε String) =
      (PollAction.rejectWith e, interval) ∧
    expectedTimePoll ect a b c minI maxI jobStartTime currentTime
      (Except.error e : Except ε String) = PollAction.rejectWith e :=
  ⟨rfl, rfl⟩

/-- C5 witness: a concrete transport error is propagated unchanged by both
strategies. -/
theorem pollCycle_transport_failure_witness :
    exponentialPoll 8000 1000 (Except.error "ECONNREFUSED" : Except String String) =
      (PollAction.rejectWith "ECONNREFUSED", 1000) ∧
    expectedTimePoll 30000 (1 / 30000) (1 / 100) 500 500 3000 0 0
      (Except.error "ECONNREFUSED" : Except String String) =
      PollAction.rejectWith "ECONNREFUSED" :=
  pollCycle_transport_failure String "ECONNREFUSED" 8000 1000 30000 (1 / 30000)
    (1 / 100) 500 500 3000 0 0

/-- C10: the expected-time strategy throws the configuration error for every
falsy `expectedCompletionTime` — absent or equal to `0` — failing before the
polling promise is constructed, so no status check is ever performed. -/
theorem expectedTimeStrategy_falsy_completion_time (ε : Type)
    (opts : ExpectedTimeOptions)
    (h : opts.expectedCompletionTime = some 0 ∨
      opts.expectedCompletionTime = none) :
    expectedTimeStrategy ε opts =
      Except.error "Expected completion time must be provided." := by
  rcases h with h | h <;> simp [expectedTimeStrategy, checkExpectedCompletionTime, h]

/-- C10 witness: with `expectedCompletionTime = 0` and otherwise default
configuration the strategy fails with the configuration error. -/
theorem expectedTimeStrategy_falsy_completion_time_witness :
    expectedTimeStrategy String
      { expectedCompletionTime := some 0, a := 1 / 30000, b := 1 / 100,
        c := 500, minimumInterval := 500, maximumInterval := 3000,
        jobStartTime := 0 } =
      Except.error "Expected completion time must be provided." :=
  expectedTimeStrategy_falsy_completion_time String _ (Or.inl rfl)

theorem stepStatus_status_error (t : ℤ) (v : VideoJob) (h : v.status = "error") :
    stepStatus t v = ("error", v) := by
  have hne : ¬(t - v.startTime ≥ v.delay ∧ v.status = "pending") := by
    rintro ⟨-, hp⟩
    rw [h] at hp
    exact absurd hp (by decide)
  rw [stepStatus, if_neg hne, h]

theorem stepStatus_status_completed (t : ℤ) (v : VideoJob)
    (h : v.status = "completed") : stepStatus t v = ("completed", v) := by
  have hne : ¬(t - v.startTime ≥ v.delay ∧ v.status = "pending") := by
    rintro ⟨-, hp⟩
    rw [h] at hp
    exact absurd hp (by decide)
  rw [stepStatus, if_neg hne, h]

theorem stepStatus_completed_state (t : ℤ) (v : VideoJob)
    (h : (stepStatus t v).1 = "completed") :
    (stepStatus t v).2.status = "completed" := by
  by_cases hc : t - v.startTime ≥ v.delay ∧ v.status = "pending"
  · simp [stepStatus, hc]
  · rw [stepStatus, if_neg hc] at h ⊢
    exact h

theorem runStatusChecks_all_error (v : VideoJob) (h : v.status = "error")
    (ts : List ℤ) :
    (∀ s ∈ (runStatusChecks v ts).1, s = "error") ∧
      (runStatusChecks v ts).2 = v := by
  induction ts with
  | nil => exact ⟨by simp [runStatusChecks], rfl⟩
  | cons t ts ih =>
    have hs := stepStatus_status_error t v h
    refine ⟨fun s hmem => ?_, ?_⟩
    · simp only [runStatusChecks, hs, List.mem_cons] at hmem
      rcases hmem with rfl | hmem
      · rfl
      · exact ih.1 s hmem
    · simp only [runStatusChecks, hs]
      exact ih.2

theorem runStatusChecks_all_completed (v : VideoJob)
    (h : v.status = "completed") (ts : List ℤ) :
    (∀ s ∈ (runStatusChecks v ts).1, s = "completed") ∧
      (runStatusChecks v ts).2 = v := by
  induction ts with
  | nil => exact ⟨by simp [runStatusChecks], rfl⟩
  | cons t ts ih =>
    have hs := stepStatus_status_completed t v h
    refine ⟨fun s hmem => ?_, ?_⟩
    · simp only [runStatusChecks, hs, List.mem_cons] at hmem
      rcases hmem with rfl | hmem
      · rfl
      · exact ih.1 s hmem
    · simp only [runStatusChecks, hs]
      exact ih.2

theorem runStatusChecks_mem_completed (ts : List ℤ) (v : VideoJob)
    (h : "completed" ∈ (runStatusChecks v ts).1) :
    (runStatusChecks v ts).2.status = "completed" := by
  induction ts generalizing v with
  | nil => simp [runStatusChecks] at h
  | cons t ts ih =>
    simp only [runStatusChecks, List.mem_cons] at h ⊢
    rcases h with hhead | htail
    · have hstate := stepStatus_completed_state t v hhead.symm
      rcases ts with - | ⟨u, us⟩
      · simpa [runStatusChecks] using hstate
      · have hall := runStatusChecks_all_completed (stepStatus t v).2 hstate
          (u :: us)
        rw [hall.2]
        exact hstate
    · exact ih (stepStatus t v).2 htail

/-- C6: for every stored job, a job whose stored status is `"error"` is
reported `"error"` at every later check; a job whose stored status is
`"pending"` is reported `"completed"` exactly when the elapsed time reaches
its delay; and once any check in a sequence has reported `"completed"`,
every later check reports `"completed"` again. -/
theorem getStatus_lifecycle (v : VideoJob) :
    (v.status = "error" →
      ∀ ts : List ℤ, ∀ s ∈ (runStatusChecks v ts).1, s = "error") ∧
    (v.status = "pending" → ∀ t : ℤ,
      ((stepStatus t v).1 = "completed" ↔ t - v.startTime ≥ v.delay)) ∧
    (∀ ts1 ts2 : List ℤ, "completed" ∈ (runStatusChecks v ts1).1 →
      ∀ s ∈ (runStatusChecks (runStatusChecks v ts1).2 ts2).1,
        s = "completed") := by
  refine ⟨fun h ts => (runStatusChecks_all_error v h ts).1,
    fun h t => ?_, fun ts1 ts2 hmem => ?_⟩
  · rcases le_or_lt v.delay (t - v.startTime) with hc | hc
    · rw [stepStatus, if_pos ⟨hc, h⟩]
      exact iff_of_true rfl hc
    · rw [stepStatus, if_neg (fun hand => absurd hand.1 (not_le.mpr hc)), h]
      show (("pending" : String) = "completed") ↔ t - v.startTime ≥ v.delay
      exact iff_of_false (by decide) (not_le.mpr hc)
  · exact (runStatusChecks_all_completed (runStatusChecks v ts1).2
      (runStatusChecks_mem_completed ts1 v hmem) ts2).1

/-- C6 witness: the three parts at concrete jobs (startTime 0, delay 5) and
concrete check times. -/
theorem getStatus_lifecycle_witness :
    (∀ s ∈ (runStatusChecks ⟨0, 5, "error"⟩ [7]).1, s = "error") ∧
    ((stepStatus 10 ⟨0, 5, "pending"⟩).1 = "completed" ↔
      (10 : ℤ) - 0 ≥ 5) ∧
    (∀ s ∈ (runStatusChecks (runStatusChecks ⟨0, 5, "pending"⟩ [9]).2 [1]).1,
      s = "completed") := by
  refine ⟨(getStatus_lifecycle ⟨0, 5, "error"⟩).1 rfl [7],
    (getStatus_lifecycle ⟨0, 5, "pending"⟩).2.1 rfl 10,
    (getStatus_lifecycle ⟨0, 5, "pending"⟩).2.2 [9] [1] ?_⟩
  decide

/-- C7: the code draws the status with `Math.random() > ERROR_RATE`, so with
`errorRate = 0` the possible draw `r = 0` (which `Math.random()` can return)
still yields `"error"`, contradicting the documented probability-`errorRate`
error assignment. -/
theorem drawStatus_zero_rate_zero_draw : drawStatus 0 0 = "error" := by
  rw [drawStatus, if_neg (lt_irrefl (0 : ℚ))]

/-- C8: when an id is already present in the store (necessarily non-empty,
since a first successful create rejects falsy ids), a second create call
with that id fails with the duplicate-id error and returns the store
unchanged: the original record keeps its startTime, delay and status, and no
entry is added or removed. -/
theorem createJob_duplicate (videos : Store) (videoID : String) (j : VideoJob)
    (now : ℤ) (rDelay rStatus : ℚ) (minDelay maxDelay : ℤ) (errorRate : ℚ)
    (hid : videoID ≠ "") (hdup : videos videoID = some j) :
    createJob videos videoID now rDelay rStatus minDelay maxDelay errorRate =
      (videos, Except.error CreateError.duplicateId) := by
  rw [createJob, if_neg hid, hdup]

/-- C8 witness: a store holding one job under `"dup"` rejects a second
create for `"dup"` and is left unchanged. -/
theorem createJob_duplicate_witness :
    createJob (fun s => if s = "dup" then some ⟨0, 5, "pending"⟩ else none)
      "dup" 100 (1 / 2) (1 / 2) 0 10 (3 / 100) =
    ((fun s => if s = "dup" then some ⟨0, 5, "pending"⟩ else none : Store),
      Except.error CreateError.duplicateId) :=
  createJob_duplicate _ "dup" ⟨0, 5, "pending"⟩ 100 (1 / 2) (1 / 2) 0 10
    (3 / 100) (by decide) (by decide)

/-- C9: for integer `minDelay ≤ maxDelay` and every possible draw
`r ∈ [0, 1)` of `Math.random()`, the created job's delay
`⌊r * (maxDelay - minDelay + 1) + minDelay⌋` is an integer in the inclusive
range `[minDelay, maxDelay]`. -/
theorem drawDelay_range (r : ℚ) (minDelay maxDelay : ℤ)
    (h0 : 0 ≤ r) (h1 : r < 1) (hle : minDelay ≤ maxDelay) :
    minDelay ≤ drawDelay r minDelay maxDelay ∧
      drawDelay r minDelay maxDelay ≤ maxDelay := by
  have hcast : ((minDelay : ℚ)) ≤ (maxDelay : ℚ) := by exact_mod_cast hle
  have hRpos : (0 : ℚ) < (maxDelay : ℚ) - (minDelay : ℚ) + 1 := by linarith
  have hfloor : drawDelay r minDelay maxDelay =
      Int.floor (r * ((maxDelay : ℚ) - (minDelay : ℚ) + 1)) + minDelay := by
    rw [drawDelay, Int.floor_add_int]
  constructor
  · rw [hfloor]
    have hnn : (0 : ℤ) ≤ Int.floor (r * ((maxDelay : ℚ) - (minDelay : ℚ) + 1)) :=
      Int.floor_nonneg.mpr (mul_nonneg h0 (le_of_lt hRpos))
    linarith
  · rw [hfloor]
    have hlt : r * ((maxDelay : ℚ) - (minDelay : ℚ) + 1) <
        ((maxDelay - minDelay + 1 : ℤ) : ℚ) := by
      push_cast
      nlinarith
    have hfl : Int.floor (r * ((maxDelay : ℚ) - (minDelay : ℚ) + 1)) <
        maxDelay - minDelay + 1 := Int.floor_lt.mpr hlt
    linarith

/-- C9 witness: with `minDelay = 3`, `maxDelay = 7` and draw `r = 1/2` the
delay lies in `[3, 7]`. -/
theorem drawDelay_range_witness :
    3 ≤ drawDelay (1 / 2) 3 7 ∧ drawDelay (1 / 2) 3 7 ≤ 7 :=
  drawDelay_range (1 / 2) 3 7 (by norm_num) (by norm_num) (by norm_num)

end VideoTranslation
